import Mathlib

/-
Verification of the round-robin HTTP load balancer in src/main.go.

The embedding models the two core types, Backend and LoadBalancer, and the
operations the specification talks about: SetAlive / IsAlive, NextBackend,
HealthCheck, HealthCheckPeriodically, ServeHTTP and the construction done by
main.  Machine behaviour that Lean cannot run directly is made explicit:
a Go runtime panic (the divide by zero in NextBackend when no backend is
registered) is the outer Option.none of NextBackend, and the timing of the
health-check loop is modelled by explicit start-time functions.
-/

/-- Backend server (src/main.go lines 15-20).  The ReverseProxy handle built
once at registration time is tracked by an abstract identifier. -/
structure Backend where
  URL : String
  Alive : Bool
  ReverseProxy : Nat
deriving DecidableEq

/-- Backend.SetAlive (src/main.go lines 22-26): writes the liveness flag under
the write lock; no other field is touched. -/
def Backend.SetAlive (b : Backend) (alive : Bool) : Backend :=
  { b with Alive := alive }

/-- Backend.IsAlive (src/main.go lines 28-32): reads the liveness flag under
the read lock. -/
def Backend.IsAlive (b : Backend) : Bool :=
  b.Alive

/-- LoadBalancer state (src/main.go lines 34-38): the ordered backend list and
the rotation cursor named current. -/
structure LoadBalancer where
  backends : List Backend
  current : Nat
deriving DecidableEq

/-- Liveness read of the backend stored at position idx, mirroring the
expression lb.backends[idx].IsAlive() in the scan loop of NextBackend
(src/main.go line 48).  An out-of-range index, which the loop never produces,
reads as false. -/
def aliveAt (backends : List Backend) (idx : Nat) : Bool :=
  match backends.get? idx with
  | some b => b.IsAlive
  | none => false

/-- LoadBalancer.NextBackend (src/main.go lines 41-54).  The Go statement
next := (lb.current + 1) % nBackends panics with a runtime divide-by-zero
when the backend list is empty; that panic is the outer Option.none.  A
normal return is some (r, lb1): r is the index of the selected backend, or
none when the full circular scan finds no alive backend, and lb1 is the
resulting state (current is updated exactly when a backend is selected). -/
def NextBackend (lb : LoadBalancer) : Option (Option Nat × LoadBalancer) :=
  if lb.backends.length = 0 then
    none
  else
    match (List.range lb.backends.length).find? (fun i =>
        aliveAt lb.backends
          (((lb.current + 1) % lb.backends.length + i) % lb.backends.length)) with
    | some i =>
        some (some (((lb.current + 1) % lb.backends.length + i) % lb.backends.length),
          { lb with
            current := ((lb.current + 1) % lb.backends.length + i) % lb.backends.length })
    | none => some (none, lb)

/-- M consecutive calls to NextBackend, collecting the returned values and the
final state; a panic stops the run. -/
def RunCalls (lb : LoadBalancer) : Nat → List (Option Nat) × LoadBalancer
  | 0 => ([], lb)
  | m + 1 =>
    match NextBackend lb with
    | none => ([], lb)
    | some (r, lb1) =>
      let rest := RunCalls lb1 (m : Nat)
      (r :: rest.1, rest.2)

/-- LoadBalancer.HealthCheck state effect (src/main.go lines 68-78): every
backend gets SetAlive with the outcome of probing its URL.  The network probe
isBackendAlive (src/main.go lines 56-65) is abstracted as the function
probe. -/
def HealthCheck (probe : String → Bool) (lb : LoadBalancer) : LoadBalancer :=
  { lb with backends := lb.backends.map (fun b => b.SetAlive (probe b.URL)) }

/-- Modelled from the documented semantics of the Go standard-library ticker
time.Tick used by HealthCheckPeriodically (src/main.go line 82): a ticker
with period interval delivers tick k (counting from 0) at time
(k + 1) * interval, so the first tick arrives only after one full interval
has elapsed. -/
def tickTime (interval k : Nat) : Nat :=
  (k + 1) * interval

/-- Start time of the k-th HealthCheck run performed by
LoadBalancer.HealthCheckPeriodically (src/main.go lines 81-85): the loop body
runs exactly once per received tick of time.Tick. -/
def HealthCheckPeriodicallyRunTime (interval k : Nat) : Nat :=
  tickTime interval k

/-- Start time of the probe of backend j inside HealthCheck (src/main.go
lines 68-78): the for loop probes the backends one after another, so the
probe of backend j starts once the probes of backends 0..j-1 have finished,
given the duration of each probe. -/
def HealthCheckProbeStart (durations : List Nat) (j : Nat) : Nat :=
  (durations.take j).sum

/-- Outcome of one dispatch: either the 503 service-unavailable answer or the
request being handed to the reverse proxy of the backend at the given
index. -/
inductive DispatchOutcome where
  | serviceUnavailable
  | proxied (idx : Nat)
deriving DecidableEq

/-- LoadBalancer.ServeHTTP (src/main.go lines 87-95): one call to
NextBackend; a nil result is answered with http.StatusServiceUnavailable and
nothing is forwarded; otherwise the request is forwarded through the chosen
backend.  The outer Option.none propagates a NextBackend panic. -/
def ServeHTTP (lb : LoadBalancer) : Option (DispatchOutcome × LoadBalancer) :=
  match NextBackend lb with
  | none => none
  | some (none, lb1) => some (DispatchOutcome.serviceUnavailable, lb1)
  | some (some idx, lb1) => some (DispatchOutcome.proxied idx, lb1)

/-- Static server list configured in main (src/main.go lines 99-105). -/
def serverList : List String :=
  ["http://localhost:8001", "http://localhost:8002", "http://localhost:8003",
   "http://localhost:8004", "http://localhost:8005"]

/-- LoadBalancer built by main before the initial health check (src/main.go
lines 107-125): each Backend literal sets only URL and ReverseProxy, so the
Alive field keeps the Go zero value false, and new(LoadBalancer) starts
current at 0.  The per-backend reverse proxy built at registration is
tracked by the registration index. -/
def initialLB : LoadBalancer :=
  { backends := serverList.enum.map
      (fun p => { URL := p.2, Alive := false, ReverseProxy := p.1 }),
    current := 0 }

/-- Concrete alive backend used to instantiate the theorems below. -/
def demoAliveBackend : Backend :=
  { URL := "http://localhost:9001", Alive := true, ReverseProxy := 0 }

/-- Concrete dead backend used to instantiate the theorems below. -/
def demoDeadBackend : Backend :=
  { URL := "http://localhost:9002", Alive := false, ReverseProxy := 1 }

/-- Balancer with three alive backends. -/
def lbThreeAlive : LoadBalancer :=
  { backends := [demoAliveBackend, demoAliveBackend, demoAliveBackend], current := 0 }

/-- Balancer whose middle backend is dead. -/
def lbMixed : LoadBalancer :=
  { backends := [demoAliveBackend, demoDeadBackend, demoAliveBackend], current := 0 }

/-- Balancer with every backend dead. -/
def lbAllDead : LoadBalancer :=
  { backends := [demoDeadBackend, demoDeadBackend], current := 0 }

/-- Balancer with no registered backend. -/
def lbEmpty : LoadBalancer :=
  { backends := [], current := 0 }

/-- Evaluating aliveAt: it is true exactly when the index holds an alive
backend. -/
lemma aliveAt_true_iff (bs : List Backend) (idx : Nat) :
    aliveAt bs idx = true ↔ ∃ b, bs.get? idx = some b ∧ b.IsAlive = true := by
  unfold aliveAt
  cases h : bs.get? idx with
  | none => simp
  | some b => simp

/-- Every position of a list of dead backends reads as not alive. -/
lemma aliveAt_false_of_allDead (bs : List Backend) (idx : Nat)
    (hdead : ∀ b ∈ bs, b.IsAlive = false) : aliveAt bs idx = false := by
  unfold aliveAt
  cases h : bs.get? idx with
  | none => rfl
  | some b => exact hdead b (List.get?_mem h)

/-- Unfolding of NextBackend in the non-panicking case. -/
lemma NextBackend_eq (lb : LoadBalancer) (hN : lb.backends.length ≠ 0) :
    NextBackend lb =
      match (List.range lb.backends.length).find? (fun i =>
          aliveAt lb.backends
            (((lb.current + 1) % lb.backends.length + i) % lb.backends.length)) with
      | some i =>
          some (some (((lb.current + 1) % lb.backends.length + i) % lb.backends.length),
            { lb with
              current := ((lb.current + 1) % lb.backends.length + i) % lb.backends.length })
      | none => some (none, lb) := by
  unfold NextBackend
  rw [if_neg hN]

/-- Inversion of a non-panicking NextBackend call: the backend list is never
changed, a none result leaves the whole state unchanged, and a selected index
is in range, becomes the new cursor, and points at an alive backend. -/
lemma NextBackend_inv (lb : LoadBalancer) (r : Option Nat) (lb1 : LoadBalancer)
    (h : NextBackend lb = some (r, lb1)) :
    lb1.backends = lb.backends ∧
    (r = none → lb1 = lb) ∧
    (∀ k, r = some k → k < lb.backends.length ∧ lb1.current = k ∧
      ∃ b, lb.backends.get? k = some b ∧ b.IsAlive = true) := by
  by_cases hN : lb.backends.length = 0
  · unfold NextBackend at h
    rw [if_pos hN] at h
    exact absurd h (by simp)
  · rw [NextBackend_eq lb hN] at h
    have hpos : 0 < lb.backends.length := Nat.pos_of_ne_zero hN
    cases hfind : (List.range lb.backends.length).find? (fun i =>
        aliveAt lb.backends
          (((lb.current + 1) % lb.backends.length + i) % lb.backends.length)) with
    | none =>
      rw [hfind] at h
      simp only [Option.some.injEq, Prod.mk.injEq] at h
      obtain ⟨hr, hlb⟩ := h
      refine ⟨by rw [← hlb], fun _ => hlb.symm, fun k hk => ?_⟩
      rw [← hr] at hk
      exact absurd hk (by simp)
    | some i =>
      rw [hfind] at h
      simp only [Option.some.injEq, Prod.mk.injEq] at h
      obtain ⟨hr, hlb⟩ := h
      have hidx : ((lb.current + 1) % lb.backends.length + i) % lb.backends.length <
          lb.backends.length := Nat.mod_lt _ hpos
      have halive := List.find?_some hfind
      rw [aliveAt_true_iff] at halive
      refine ⟨by rw [← hlb], fun hnone => ?_, fun k hk => ?_⟩
      · rw [← hr] at hnone
        exact absurd hnone (by simp)
      · rw [← hr] at hk
        simp only [Option.some.injEq] at hk
        subst hk
        exact ⟨hidx, by rw [← hlb], halive⟩

/-- NextBackend on a state whose backends are all dead: no candidate passes
the liveness check, so the scan falls through and the state is untouched. -/
lemma NextBackend_of_allDead (lb : LoadBalancer) (hN : 0 < lb.backends.length)
    (hdead : ∀ b ∈ lb.backends, b.IsAlive = false) :
    NextBackend lb = some (none, lb) := by
  rw [NextBackend_eq lb (Nat.pos_iff_ne_zero.mp hN)]
  have hfind : (List.range lb.backends.length).find? (fun i =>
      aliveAt lb.backends
        (((lb.current + 1) % lb.backends.length + i) % lb.backends.length)) = none := by
    rw [List.find?_eq_none]
    intro i _
    rw [aliveAt_false_of_allDead lb.backends _ hdead]
    simp
  rw [hfind]

/-- On a list starting at 0 the scan stops at its very first candidate when
that candidate passes the test. -/
lemma find?_range_zero (p : Nat → Bool) (n : Nat) (hp : p 0 = true) :
    (List.range (n + 1)).find? p = some 0 := by
  rw [List.range_succ_eq_map]
  exact List.find?_cons_of_pos _ hp

/-- NextBackend on a state whose backends are all alive: the scan accepts its
first candidate, the slot immediately after the cursor. -/
lemma NextBackend_of_allAlive (lb : LoadBalancer) (hN : 0 < lb.backends.length)
    (halive : ∀ b ∈ lb.backends, b.IsAlive = true) :
    NextBackend lb = some (some ((lb.current + 1) % lb.backends.length),
      { lb with current := (lb.current + 1) % lb.backends.length }) := by
  rw [NextBackend_eq lb (Nat.pos_iff_ne_zero.mp hN)]
  have hnextlt : (lb.current + 1) % lb.backends.length < lb.backends.length :=
    Nat.mod_lt _ hN
  have hp0 : aliveAt lb.backends
      (((lb.current + 1) % lb.backends.length + 0) % lb.backends.length) = true := by
    rw [Nat.add_zero, Nat.mod_eq_of_lt hnextlt]
    refine (aliveAt_true_iff _ _).mpr ?_
    refine ⟨lb.backends.get ⟨_, hnextlt⟩, List.get?_eq_get hnextlt, ?_⟩
    exact halive _ (List.get_mem _ _ _)
  obtain ⟨n, hn⟩ : ∃ n, lb.backends.length = n + 1 :=
    ⟨lb.backends.length - 1, by omega⟩
  rw [hn] at hp0 ⊢
  rw [find?_range_zero _ n hp0]
  simp [Nat.mod_eq_of_lt (hn ▸ hnextlt)]

/-- One successful step of RunCalls. -/
lemma RunCalls_succ_of_some (lb lb1 : LoadBalancer) (r : Option Nat) (M : Nat)
    (h : NextBackend lb = some (r, lb1)) :
    RunCalls lb (M + 1) = (r :: (RunCalls lb1 M).1, (RunCalls lb1 M).2) := by
  simp [RunCalls, h]

/-- Remainder of a number below twice the modulus, by cases. -/
lemma mod_two_cases (x N : Nat) (_hN : 0 < N) (h : x < 2 * N) :
    x % N = if x < N then x else x - N := by
  split
  · exact Nat.mod_eq_of_lt (by assumption)
  · have hge : N ≤ x := Nat.le_of_not_lt (by assumption)
    rw [Nat.mod_eq_sub_mod hge, Nat.mod_eq_of_lt (by omega)]

/-- Hitting a residue class after an affine shift, rephrased as a condition
on the plain remainder. -/
lemma affine_mod_iff (N a k m : Nat) (hN : 0 < N) (hk : k < N) :
    (a + m) % N = k ↔ m % N = (k + (N - a % N)) % N := by
  obtain ⟨s, hs_eq, hs_lt⟩ : ∃ s, a % N = s ∧ s < N := ⟨_, rfl, Nat.mod_lt _ hN⟩
  obtain ⟨t, ht_eq, ht_lt⟩ : ∃ t, m % N = t ∧ t < N := ⟨_, rfl, Nat.mod_lt _ hN⟩
  rw [Nat.add_mod, hs_eq, ht_eq]
  rw [mod_two_cases (s + t) N hN (by omega)]
  rw [mod_two_cases (k + (N - s)) N hN (by omega)]
  split <;> split <;> omega

/-- Divisibility test behind the residue-class counting formula. -/
lemma dvd_shift_iff_mod (N r M : Nat) (hN : 0 < N) (hr : r < N) :
    N ∣ (M + (N - 1 - r) + 1) ↔ M % N = r := by
  obtain ⟨t, ht, hdvdt⟩ : ∃ t, t = N * (M / N) ∧ N ∣ t := ⟨_, rfl, ⟨M / N, rfl⟩⟩
  have hdecomp : t + M % N = M := by rw [ht]; exact Nat.div_add_mod M N
  obtain ⟨s, hs_eq, hs_lt⟩ : ∃ s, M % N = s ∧ s < N := ⟨_, rfl, Nat.mod_lt _ hN⟩
  rw [hs_eq] at hdecomp ⊢
  constructor
  · intro hdvd
    have heq : M + (N - 1 - r) + 1 = t + (s + (N - 1 - r) + 1) := by omega
    rw [heq] at hdvd
    have h2 : N ∣ (s + (N - 1 - r) + 1) := by
      have h5 := Nat.dvd_sub' hdvd hdvdt
      rwa [Nat.add_sub_cancel_left] at h5
    have hle : N ≤ s + (N - 1 - r) + 1 := Nat.le_of_dvd (by omega) h2
    have hlt : s + (N - 1 - r) + 1 < 2 * N := by omega
    have hmod0 : (s + (N - 1 - r) + 1) % N = 0 := Nat.mod_eq_zero_of_dvd h2
    rw [Nat.mod_eq_sub_mod hle, Nat.mod_eq_of_lt (by omega)] at hmod0
    omega
  · intro hsr
    have heq : M + (N - 1 - r) + 1 = t + N := by omega
    rw [heq]
    exact dvd_add hdvdt dvd_rfl

/-- Number of elements of a residue class below M: the closed formula. -/
lemma countP_mod_range (N r : Nat) (hN : 0 < N) (hr : r < N) (M : Nat) :
    (List.range M).countP (fun m => decide (m % N = r)) = (M + (N - 1 - r)) / N := by
  induction M with
  | zero =>
    rw [List.range_zero, List.countP_nil, Nat.zero_add,
      Nat.div_eq_of_lt (by omega)]
  | succ M ih =>
    rw [List.range_succ, List.countP_append, ih, List.countP_cons, List.countP_nil]
    have harr : M + 1 + (N - 1 - r) = M + (N - 1 - r) + 1 := by omega
    rw [harr, Nat.succ_div]
    rw [Nat.zero_add]
    congr 1
    by_cases h : M % N = r
    · rw [if_pos ((dvd_shift_iff_mod N r M hN hr).mpr h)]
      simp [h]
    · rw [if_neg (fun hd => h ((dvd_shift_iff_mod N r M hN hr).mp hd))]
      simp [h]

/-- A residue-class count over M samples is the floor or the ceiling of M
divided by the modulus. -/
lemma count_floor_ceil (N r M : Nat) (hN : 0 < N) (hr : r < N) :
    (M + (N - 1 - r)) / N = M / N ∨ (M + (N - 1 - r)) / N = (M + N - 1) / N := by
  have h1 : M / N ≤ (M + (N - 1 - r)) / N := Nat.div_le_div_right (by omega)
  have h2 : (M + (N - 1 - r)) / N ≤ (M + N - 1) / N := Nat.div_le_div_right (by omega)
  have h3 : (M + N - 1) / N ≤ M / N + 1 := by
    have h4 : (M + N - 1) / N ≤ (M + N) / N := Nat.div_le_div_right (by omega)
    rwa [Nat.add_div_right M hN] at h4
  rcases Nat.eq_or_lt_of_le h1 with h | h
  · exact Or.inl h.symm
  · exact Or.inr (Nat.le_antisymm h2 (Nat.le_trans h3 h))

/-- Trace of M calls on an all-alive balancer: call m returns the slot m + 1
positions after the starting cursor, wrapping circularly. -/
lemma RunCalls_allAlive_fst (M : Nat) : ∀ (lb : LoadBalancer),
    0 < lb.backends.length →
    (∀ b ∈ lb.backends, b.IsAlive = true) →
    (RunCalls lb M).1 = (List.range M).map
      (fun m => some ((lb.current + 1 + m) % lb.backends.length)) := by
  induction M with
  | zero => intro lb _ _; simp [RunCalls]
  | succ M ih =>
    intro lb hN halive
    have hstep := NextBackend_of_allAlive lb hN halive
    have ih1 := ih { lb with current := (lb.current + 1) % lb.backends.length } hN halive
    simp only at ih1
    have hfst : (RunCalls lb (M + 1)).1 = some ((lb.current + 1) % lb.backends.length) ::
        (RunCalls { lb with current := (lb.current + 1) % lb.backends.length } M).1 := by
      rw [RunCalls_succ_of_some lb _ _ M hstep]
    rw [hfst, ih1, List.range_succ_eq_map, List.map_cons, List.map_map]
    congr 1
    refine List.map_congr_left (fun m _ => ?_)
    simp only [Function.comp_apply]
    congr 1
    rw [Nat.add_assoc ((lb.current + 1) % lb.backends.length) 1 m, Nat.mod_add_mod]
    congr 1
    omega

/-- A backend whose flag is false is never the value of any call in a run,
whatever the starting cursor is. -/
lemma RunCalls_never_dead (k : Nat) (b : Backend) (hdead : b.IsAlive = false) :
    ∀ (M : Nat) (lb : LoadBalancer), lb.backends.get? k = some b →
      some k ∉ (RunCalls lb M).1 := by
  intro M
  induction M with
  | zero => intro lb _; simp [RunCalls]
  | succ M ih =>
    intro lb hb
    cases hnb : NextBackend lb with
    | none =>
      have hrun : RunCalls lb (M + 1) = ([], lb) := by simp [RunCalls, hnb]
      rw [hrun]
      simp
    | some p =>
      obtain ⟨r, lb1⟩ := p
      rw [RunCalls_succ_of_some lb lb1 r M hnb]
      obtain ⟨hbk, _, hsome⟩ := NextBackend_inv lb r lb1 hnb
      intro hmem
      rcases List.mem_cons.mp hmem with heq | hmem1
      · obtain ⟨_, _, b1, hb1, halive1⟩ := hsome k heq.symm
        rw [hb] at hb1
        injection hb1 with hbb
        rw [← hbb, hdead] at halive1
        exact Bool.noConfusion halive1
      · exact ih lb1 (by rw [hbk]; exact hb) hmem1

/-- Claim C1: on a balancer with at least one backend and every backend
alive, M consecutive NextBackend calls follow the circular order starting
immediately after the current cursor (call m returns index
(cursor + 1 + m) mod N), and every backend index k below N is returned
either floor (M / N) or ceiling (M / N) times. -/
theorem roundRobin_fair_visits (lb : LoadBalancer) (M k : Nat)
    (hN : 0 < lb.backends.length)
    (halive : ∀ b ∈ lb.backends, b.IsAlive = true)
    (hk : k < lb.backends.length) :
    (RunCalls lb M).1 = (List.range M).map
      (fun m => some ((lb.current + 1 + m) % lb.backends.length)) ∧
    ((RunCalls lb M).1.countP (fun r => decide (r = some k)) =
        M / lb.backends.length ∨
     (RunCalls lb M).1.countP (fun r => decide (r = some k)) =
        (M + lb.backends.length - 1) / lb.backends.length) := by
  have htrace := RunCalls_allAlive_fst M lb hN halive
  refine ⟨htrace, ?_⟩
  rw [htrace, List.countP_map]
  have hfun : ((fun r => decide (r = some k)) ∘
      (fun m => some ((lb.current + 1 + m) % lb.backends.length))) =
      fun m => decide (m % lb.backends.length =
        (k + (lb.backends.length - (lb.current + 1) % lb.backends.length)) %
          lb.backends.length) := by
    funext m
    simp only [Function.comp_apply]
    apply decide_eq_decide.mpr
    exact Iff.trans (by simp)
      (affine_mod_iff lb.backends.length (lb.current + 1) k m hN hk)
  rw [hfun, countP_mod_range _ _ hN (Nat.mod_lt _ hN) M]
  exact count_floor_ceil _ _ M hN (Nat.mod_lt _ hN)

/-- Claim C1 instantiated on a concrete three-backend balancer with five
calls. -/
theorem roundRobin_fair_visits_witness :
    0 < lbThreeAlive.backends.length ∧
    ((RunCalls lbThreeAlive 5).1 = (List.range 5).map
      (fun m => some ((lbThreeAlive.current + 1 + m) % lbThreeAlive.backends.length)) ∧
    ((RunCalls lbThreeAlive 5).1.countP (fun r => decide (r = some 1)) =
        5 / lbThreeAlive.backends.length ∨
     (RunCalls lbThreeAlive 5).1.countP (fun r => decide (r = some 1)) =
        (5 + lbThreeAlive.backends.length - 1) / lbThreeAlive.backends.length)) :=
  ⟨by decide, roundRobin_fair_visits lbThreeAlive 5 1 (by decide) (by decide) (by decide)⟩

/-- Claim C2: a backend whose alive flag is false is never the selected
backend: a single call cannot select its index, and no number of successive
calls ever returns it. -/
theorem dead_backend_never_selected (lb : LoadBalancer) (k : Nat) (b : Backend)
    (hb : lb.backends.get? k = some b) (hdead : b.IsAlive = false) :
    (∀ lb1, ¬ (NextBackend lb = some (some k, lb1))) ∧
    (∀ M, some k ∉ (RunCalls lb M).1) := by
  constructor
  · intro lb1 h
    obtain ⟨_, _, hsome⟩ := NextBackend_inv lb (some k) lb1 h
    obtain ⟨_, _, b1, hb1, halive1⟩ := hsome k rfl
    rw [hb] at hb1
    injection hb1 with hbb
    rw [← hbb, hdead] at halive1
    exact Bool.noConfusion halive1
  · intro M
    exact RunCalls_never_dead k b hdead M lb hb

/-- Claim C2 instantiated: the dead middle backend of a concrete balancer is
never selected over six calls. -/
theorem dead_backend_never_selected_witness :
    lbMixed.backends.get? 1 = some demoDeadBackend ∧
    some 1 ∉ (RunCalls lbMixed 6).1 :=
  ⟨rfl, (dead_backend_never_selected lbMixed 1 demoDeadBackend rfl rfl).2 6⟩

/-- Claim C3 counterexample: with zero registered backends every alive flag
is vacuously false, yet NextBackend does not return the none value with the
cursor unchanged: the modulo by zero makes the call panic instead. -/
theorem allDead_empty_backends_counterexample :
    NextBackend lbEmpty = Option.none ∧
    ¬ (NextBackend lbEmpty = some (none, lbEmpty)) := by
  exact ⟨rfl, by decide⟩

/-- Claim C3 (amended): on a balancer with at least one registered backend,
if every alive flag is false then NextBackend returns the none value and the
whole state, in particular the cursor, is unchanged. -/
theorem allDead_returns_none_cursor_unchanged (lb : LoadBalancer)
    (hN : 0 < lb.backends.length)
    (hdead : ∀ b ∈ lb.backends, b.IsAlive = false) :
    NextBackend lb = some (none, lb) :=
  NextBackend_of_allDead lb hN hdead

/-- Claim C3 instantiated on a concrete two-backend balancer with both
backends dead. -/
theorem allDead_returns_none_cursor_unchanged_witness :
    0 < lbAllDead.backends.length ∧
    NextBackend lbAllDead = some (none, lbAllDead) :=
  ⟨by decide, allDead_returns_none_cursor_unchanged lbAllDead (by decide) (by decide)⟩

/-- Claim C4: when the cursor is a valid index into the backend list, it is
still a valid index after any non-panicking NextBackend call, whether or not
a backend was found. -/
theorem cursor_stays_in_range (lb : LoadBalancer) (r : Option Nat)
    (lb1 : LoadBalancer) (hcur : lb.current < lb.backends.length)
    (h : NextBackend lb = some (r, lb1)) :
    lb1.current < lb1.backends.length := by
  obtain ⟨hbk, hnone, hsome⟩ := NextBackend_inv lb r lb1 h
  cases r with
  | none => rw [hnone rfl]; exact hcur
  | some k =>
    obtain ⟨hk, hcur1, _⟩ := hsome k rfl
    rw [hbk, hcur1]
    exact hk

/-- Claim C4 instantiated: one call on a concrete mixed balancer moves the
cursor from 0 to the valid index 2. -/
theorem cursor_stays_in_range_witness :
    lbMixed.current < lbMixed.backends.length ∧
    ({ lbMixed with current := 2 } : LoadBalancer).current <
      ({ lbMixed with current := 2 } : LoadBalancer).backends.length :=
  ⟨by decide,
   cursor_stays_in_range lbMixed (some 2) { lbMixed with current := 2 }
     (by decide) (by decide)⟩

/-- Claim C5: ServeHTTP performs exactly one NextBackend call; a none result
is answered with the 503 service-unavailable response and nothing is
forwarded, and a selected backend is exactly the one the request is
forwarded to. -/
theorem dispatch_relays_nextBackend (lb : LoadBalancer) :
    (∀ lb1, NextBackend lb = some (none, lb1) →
      ServeHTTP lb = some (DispatchOutcome.serviceUnavailable, lb1)) ∧
    (∀ k lb1, NextBackend lb = some (some k, lb1) →
      ServeHTTP lb = some (DispatchOutcome.proxied k, lb1)) := by
  constructor
  · intro lb1 h
    unfold ServeHTTP
    rw [h]
  · intro k lb1 h
    unfold ServeHTTP
    rw [h]

/-- Claim C5 instantiated: a dispatch on a concrete all-alive balancer
forwards to backend 1, the backend NextBackend selects. -/
theorem dispatch_relays_nextBackend_witness :
    ServeHTTP lbThreeAlive =
      some (DispatchOutcome.proxied 1, { lbThreeAlive with current := 1 }) :=
  (dispatch_relays_nextBackend lbThreeAlive).2 1
    { lbThreeAlive with current := 1 } (by decide)

/-- Claim C6 counterexample: with a 10-unit interval the first HealthCheck
run of HealthCheckPeriodically does not happen at time 0: time.Tick delivers
its first tick only after a full interval, so the first run is not
immediate. -/
theorem periodic_first_run_not_immediate :
    HealthCheckPeriodicallyRunTime 10 0 ≠ 0 := by decide

/-- Claim C6 (amended): the first HealthCheck run of HealthCheckPeriodically
happens only once one full interval has elapsed, and each later run follows
the previous one after exactly one more interval. -/
theorem periodic_runs_after_each_interval (interval k : Nat) :
    HealthCheckPeriodicallyRunTime interval 0 = interval ∧
    HealthCheckPeriodicallyRunTime interval (k + 1) =
      HealthCheckPeriodicallyRunTime interval k + interval := by
  unfold HealthCheckPeriodicallyRunTime tickTime
  constructor
  · rw [Nat.one_mul]
  · ring

/-- Claim C7 counterexample: with probe durations 2 and 1, the probe of
backend 1 starts at time 2, while it would start at time 0 had the probe of
backend 0 been instantaneous: a slow probe of one backend delays the probing
of another. -/
theorem probe_delay_counterexample :
    HealthCheckProbeStart [2, 1] 1 ≠ HealthCheckProbeStart [0, 1] 1 := by decide

/-- Claim C7 (amended): HealthCheck probes the backends sequentially in
registration order: the probe of backend j + 1 starts exactly when the probe
of backend j finishes, so a slow or timed-out probe postpones every later
probe and liveness update. -/
theorem probes_sequential_start (durations : List Nat) (j : Nat)
    (h : j < durations.length) :
    HealthCheckProbeStart durations (j + 1) =
      HealthCheckProbeStart durations j + durations.getD j 0 := by
  unfold HealthCheckProbeStart
  induction durations generalizing j with
  | nil => exact absurd h (Nat.not_lt_zero j)
  | cons d ds ih =>
    cases j with
    | zero => simp
    | succ j =>
      rw [List.take_succ_cons, List.take_succ_cons, List.sum_cons, List.sum_cons,
        List.getD_cons_succ, ih j (by simpa using h)]
      omega

/-- Claim C7 amended statement instantiated on probe durations 2 and 1. -/
theorem probes_sequential_start_witness :
    0 < ([2, 1] : List Nat).length ∧
    HealthCheckProbeStart [2, 1] 1 =
      HealthCheckProbeStart [2, 1] 0 + ([2, 1] : List Nat).getD 0 0 :=
  ⟨by decide, probes_sequential_start [2, 1] 0 (by decide)⟩

/-- Claim C8: SetAlive true is idempotent: a second SetAlive true changes
nothing, the flag then reads true, and the URL and the reverse-proxy handle
are untouched. -/
theorem setAlive_true_idempotent (b : Backend) :
    (b.SetAlive true).SetAlive true = b.SetAlive true ∧
    ((b.SetAlive true).SetAlive true).IsAlive = true ∧
    ((b.SetAlive true).SetAlive true).URL = b.URL ∧
    ((b.SetAlive true).SetAlive true).ReverseProxy = b.ReverseProxy :=
  ⟨rfl, rfl, rfl, rfl⟩

/-- Claim C9: NextBackend panics exactly when no backend is registered (the
modulo by zero on the empty list), and whenever a backend is selected its
index is a valid position in the backend list. -/
theorem empty_backends_panic (lb : LoadBalancer) :
    (NextBackend lb = Option.none ↔ lb.backends.length = 0) ∧
    (∀ k lb1, NextBackend lb = some (some k, lb1) → k < lb.backends.length) := by
  constructor
  · constructor
    · intro h
      by_contra hne
      rw [NextBackend_eq lb hne] at h
      cases hfind : (List.range lb.backends.length).find? (fun i =>
          aliveAt lb.backends
            (((lb.current + 1) % lb.backends.length + i) % lb.backends.length)) with
      | none => rw [hfind] at h; exact absurd h (by simp)
      | some i => rw [hfind] at h; exact absurd h (by simp)
    · intro h0
      unfold NextBackend
      rw [if_pos h0]
  · intro k lb1 h
    exact ((NextBackend_inv lb (some k) lb1 h).2.2 k rfl).1

/-- Claim C9 instantiated: the empty balancer panics, and the index selected
on a concrete three-backend balancer is in range. -/
theorem empty_backends_panic_witness :
    NextBackend lbEmpty = Option.none ∧ 1 < lbThreeAlive.backends.length :=
  ⟨(empty_backends_panic lbEmpty).1.mpr rfl,
   (empty_backends_panic lbThreeAlive).2 1
     { lbThreeAlive with current := 1 } (by decide)⟩

/-- Claim C10: main registers every backend without any SetAlive call, so
before the first health check every alive flag is the Go zero value false;
in that state every NextBackend call returns the none value and leaves the
state unchanged, and a dispatch fails closed with the 503
service-unavailable response. -/
theorem initial_backends_dead_fail_closed :
    initialLB.backends.map Backend.IsAlive = [false, false, false, false, false] ∧
    (∀ M, RunCalls initialLB M = (List.replicate M none, initialLB)) ∧
    ServeHTTP initialLB = some (DispatchOutcome.serviceUnavailable, initialLB) := by
  have hstep : NextBackend initialLB = some (none, initialLB) :=
    NextBackend_of_allDead initialLB (by decide) (by decide)
  refine ⟨rfl, ?_, ?_⟩
  · intro M
    induction M with
    | zero => rfl
    | succ M ih =>
      rw [RunCalls_succ_of_some initialLB initialLB none M hstep, ih]
      simp [List.replicate_succ]
  · unfold ServeHTTP
    rw [hstep]
